import Mathlib

/-!
Shallow embedding of `src/main.py` of the stackit-database-validation tool.

The tool is a sequential pipeline of REST calls; we model the remote API as a
pure `World` value giving, for each request the program can issue, the parsed
JSON payload the server would answer with.  Python exceptions are modelled with
`Except`; the raise at the end of a run that merely signals an aggregate ACL
mismatch is modelled separately as `RunOutcome.aclFailure`, since the claims
distinguish that terminal signal from transport/lookup crashes.
-/

/-- Python exceptions that the modelled code can raise.
`valueError` is the `ValueError("Egress IP not found in cluster details.")`
raise (the EgressRangeNotFound of the spec), `keyError` a failed dict index,
`typeError` the `set(None)` failure, `attributeError` the `None.upper()`
failure. -/
inductive PyError where
  | valueError
  | keyError
  | typeError
  | attributeError
  deriving DecidableEq

/-- Terminal state of a run that processed every project: the final
`logger.info` success path, or the `raise Exception(...)` aggregate-mismatch
signal at the end of `validate_org` / `validate_projects`. -/
inductive RunOutcome where
  | success
  | aclFailure
  deriving DecidableEq

/-- The `status.egressAddressRanges` slot of a Get Cluster response body:
the key may be missing altogether (Python dict indexing raises `KeyError`),
present with JSON `null` (Python `None`), or present with a list. -/
inductive EgressField where
  | missing
  | null
  | val (l : List String)
  deriving DecidableEq

/-- One entry of the `items` array of the database-instance listing
(`get_databases_in_project`); the code reads `db["id"]` and `db["name"]`. -/
structure DbInstance where
  id : String
  name : String
  deriving DecidableEq

/-- A JSON object whose fields are strings, as an association list; used for
the organization project listing whose items may lack fields. -/
abbrev JsonObj := List (String × String)

/-- Python `dict.get(key)`: `none` when the key is absent. -/
def pyGet (o : JsonObj) (k : String) : Option String :=
  o.lookup k

/-- Python `f"...{x}..."` applied to an `Optional[str]`: `None` renders as
the string `"None"`. -/
def pyStr : Option String → String
  | some s => s
  | none => "None"

/-- The pure data behind the remote API: for every request the program can
issue, the parsed JSON payload of the (successful) response. -/
structure World where
  /-- `status.egressAddressRanges` of `GET .../clusters/{name}` for
  (project id, cluster name). -/
  clusterEgress : String → String → EgressField
  /-- `items` of `GET /v2/projects?containerParentId={org}`. -/
  orgProjects : String → List JsonObj
  /-- `name` of `GET /v2/projects/{project_id}`. -/
  projectName : String → String
  /-- `items` of the instance listing of a project. -/
  databases : String → List DbInstance
  /-- `item.acl.items` of the instance detail of (project id, instance id). -/
  acl_rules : String → String → List String

/-- Default `project_id` of the production cluster in `OrgSettings`. -/
def prodClusterProjectId : String := "df003e90-b77d-4d31-a06c-cd7f4013076d"

/-- Default `project_id` of the non-production cluster in `OrgSettings`. -/
def nonProdClusterProjectId : String := "dceaea5e-fc88-4adb-8c7f-6bcb112835bb"

/-- `get_cluster_egress_ip`: extracts
`cluster_data["status"]["egressAddressRanges"]` (a missing key raises
`KeyError`) and raises `ValueError` when the extracted value is falsy
(`None` or the empty list); otherwise returns the list. -/
def get_cluster_egress_ip (w : World) (project_id cluster_name : String) :
    Except PyError (List String) :=
  match w.clusterEgress project_id cluster_name with
  | EgressField.missing => Except.error PyError.keyError
  | EgressField.null => Except.error PyError.valueError
  | EgressField.val [] => Except.error PyError.valueError
  | EgressField.val (x :: xs) => Except.ok (x :: xs)

/-- `get_all_projects`: maps every item of the listing to
`(p.get("projectId"), p.get("name"))`; missing fields become `none`. -/
def get_all_projects (w : World) (organization_id : String) :
    List (Option String × Option String) :=
  (w.orgProjects organization_id).map (fun p => (pyGet p "projectId", pyGet p "name"))

/-- `get_project_details`: for each supplied id, pairs it with the `name`
field of the project-detail response. -/
def get_project_details (w : World) (project_ids : List String) :
    List (String × String) :=
  project_ids.map (fun pid => (pid, w.projectName pid))

/-- Python `set(a) == set(b)` on two `list[str]` values. -/
def pySetEq (a b : List String) : Bool :=
  decide (a.toFinset = b.toFinset)

/-- Python `s.upper()` (ASCII case mapping, as used on the project names). -/
def pyUpper (s : String) : String :=
  String.mk (s.data.map Char.toUpper)

/-- Char-list test: `needle` is an initial segment of `hay`. -/
def charsHaveStart : List Char → List Char → Bool
  | [], _ => true
  | _ :: _, [] => false
  | a :: as, b :: bs => a == b && charsHaveStart as bs

/-- Char-list substring test, Python `needle in hay` for strings. -/
def charsContain (needle : List Char) : List Char → Bool
  | [] => needle.isEmpty
  | b :: bs => charsHaveStart needle (b :: bs) || charsContain needle bs

/-- Case-insensitive variant used only to state claims: the needle (given in
upper case) matches at a position when each needle char equals the upper-cased
hay char. -/
def charsHaveStartCI : List Char → List Char → Bool
  | [], _ => true
  | _ :: _, [] => false
  | a :: as, b :: bs => a == b.toUpper && charsHaveStartCI as bs

/-- Case-insensitive substring occurrence, companion of `charsHaveStartCI`. -/
def charsContainCI (needle : List Char) : List Char → Bool
  | [] => needle.isEmpty
  | b :: bs => charsHaveStartCI needle (b :: bs) || charsContainCI needle bs

/-- The classification test of `get_egress_range`:
`"NON-PROD" in project_name.upper()`. -/
def hasNonProdMarker (name : String) : Bool :=
  charsContain "NON-PROD".data (pyUpper name).data

/-- `get_egress_range`: selects the non-production argument exactly when the
project name contains the marker, else the production argument.  The function
just chooses between its two arguments, so we state it polymorphically; the
Python call sites pass `list[str]` or `None`-able lists. -/
def get_egress_range {α : Type} (project_name : String) (prod non_prod : α) : α :=
  if hasNonProdMarker project_name then non_prod else prod

/-- Log entries emitted by `check_database_acl_of_project`, carrying the data
interpolated into the corresponding `logger` call. -/
inductive LogEntry where
  /-- `logger.info("No databases in this project")`. -/
  | noDatabases
  /-- The per-instance success `logger.info` line. -/
  | aclCorrect (dbName dbId : String)
  /-- The per-instance `logger.error` line with expected and found sets. -/
  | aclFailed (dbName dbId : String) (expected actual : List String)
  deriving DecidableEq

/-- The `for db in databases` loop of `check_database_acl_of_project`:
fetches each instance ACL, compares `set(acl_rules) == set(range)` (a `None`
range raises `TypeError` from `set(None)`), accumulates the verdict without
short-circuiting and appends one log entry per instance. -/
def checkLoop (w : World) (project_id : String) (range : Option (List String)) :
    List DbInstance → Bool → List LogEntry → Except PyError (Bool × List LogEntry)
  | [], acc, log => Except.ok (acc, log)
  | db :: rest, acc, log =>
      let acl_rules := w.acl_rules project_id db.id
      match range with
      | none => Except.error PyError.typeError
      | some r =>
          if pySetEq acl_rules r then
            checkLoop w project_id range rest acc
              (log ++ [LogEntry.aclCorrect db.name db.id])
          else
            checkLoop w project_id range rest false
              (log ++ [LogEntry.aclFailed db.name db.id r acl_rules])

/-- `check_database_acl_of_project`: lists the databases of the project, logs
the informational note when there are none, then runs the per-instance loop
starting from a `True` verdict. -/
def check_database_acl_of_project (w : World) (project_id : String)
    (cluster_egress_range : Option (List String)) :
    Except PyError (Bool × List LogEntry) :=
  let databases := w.databases project_id
  checkLoop w project_id cluster_egress_range databases true
    (if databases.isEmpty then [LogEntry.noDatabases] else [])

/-- The per-project loop of `validate_org`.  The project name coming from
`get_all_projects` may be `None`; `get_egress_range` then crashes on
`None.upper()` with `AttributeError`.  A `None` project id is rendered as the
string `"None"` by the URL f-string. -/
def orgLoop (w : World) (pr npr : List String) :
    List (Option String × Option String) → Bool → Except PyError RunOutcome
  | [], acc => Except.ok (if acc then RunOutcome.success else RunOutcome.aclFailure)
  | (pid, pname) :: rest, acc =>
      match pname with
      | none => Except.error PyError.attributeError
      | some nm =>
          let range := get_egress_range nm (some pr) (some npr)
          match check_database_acl_of_project w (pyStr pid) range with
          | Except.error e => Except.error e
          | Except.ok (ok, _) => orgLoop w pr npr rest (acc && ok)

/-- `validate_org`: resolves both cluster egress ranges, lists the projects of
the organization, returns successfully when there are none, otherwise runs the
per-project loop and raises the aggregate-mismatch exception iff some database
mismatched. -/
def validate_org (w : World) (organization_id : String) :
    Except PyError RunOutcome :=
  match get_cluster_egress_ip w prodClusterProjectId "production" with
  | Except.error e => Except.error e
  | Except.ok pr =>
    match get_cluster_egress_ip w nonProdClusterProjectId "non-prod" with
    | Except.error e => Except.error e
    | Except.ok npr =>
      let projects := get_all_projects w organization_id
      if projects.isEmpty then Except.ok RunOutcome.success
      else orgLoop w pr npr projects true

/-- The per-project loop of `validate_projects`. -/
def validateLoop (w : World) (pr npr : Option (List String)) :
    List (String × String) → Bool → Except PyError RunOutcome
  | [], acc => Except.ok (if acc then RunOutcome.success else RunOutcome.aclFailure)
  | (pid, name) :: rest, acc =>
      let range := get_egress_range name pr npr
      match check_database_acl_of_project w pid range with
      | Except.error e => Except.error e
      | Except.ok (ok, _) => validateLoop w pr npr rest (acc && ok)

/-- `validate_projects`: resolves the display name of every supplied project
id, then classifies and validates each project, raising the
aggregate-mismatch exception iff some database mismatched.  The two ranges
are exactly the values of the CLI options (possibly `None`). -/
def validate_projects (w : World) (project_ids : List String)
    (prod_egress_range non_prod_egress_range : Option (List String)) :
    Except PyError RunOutcome :=
  validateLoop w prod_egress_range non_prod_egress_range
    (get_project_details w project_ids) true

/-- How `validate_projects` obtains each egress range: the
`typer.Option(help=..., default=None)` declarations pass no `envvar`
argument, so option resolution yields the command-line value and never
consults the environment variable named in the help text. -/
def resolveEgressOption (cli_value _env_value : Option (List String)) :
    Option (List String) :=
  cli_value

/-- The memoization state of `get_bearer_token` (`functools.lru_cache`),
together with a log of the external `stackit auth activate-service-account`
invocations actually performed.  The cache list is kept in recency order,
most recently used entry first. -/
structure TokenCache where
  cache : List (String × String)
  activations : List String

/-- The empty cache at process start. -/
def emptyTokenCache : TokenCache := ⟨[], []⟩

/-- The default `maxsize` of a bare `@lru_cache` decorator. -/
def lruMaxsize : Nat := 128

/-- `get_bearer_token` under a bare `@lru_cache` (so an LRU cache bounded by
`maxsize=128`): on a cache hit the memoized token is returned with no
external invocation and the entry moves to the most-recently-used position;
on a miss the external mechanism (`activate`) runs once, its result is
inserted as most recent, and the least recently used entry is evicted when
the cache would exceed 128 entries. -/
def get_bearer_token (activate : String → String) (st : TokenCache)
    (key_path : String) : String × TokenCache :=
  match st.cache.lookup key_path with
  | some t =>
      (t, ⟨(key_path, t) :: st.cache.eraseP (fun e => e.1 == key_path),
        st.activations⟩)
  | none =>
      let t := activate key_path
      (t, ⟨((key_path, t) :: st.cache).take lruMaxsize, key_path :: st.activations⟩)

/-- A sequence of `get_bearer_token` calls threaded through the cache,
returning the tokens in call order and the final cache state. -/
def runCalls (activate : String → String) (st : TokenCache) :
    List String → List String × TokenCache
  | [] => ([], st)
  | p :: rest =>
      match get_bearer_token activate st p with
      | (t, st1) =>
          match runCalls activate st1 rest with
          | (ts, st2) => (t :: ts, st2)

/-- 129 pairwise distinct key paths, one more than the cache can hold. -/
def manyPaths : List String := (List.range 129).map (fun i => "k" ++ Nat.repr i)

/-- A call sequence that first exhausts the cache capacity with 129 distinct
key paths (evicting the first) and then requests the first path again. -/
def evictionCalls : List String := manyPaths ++ ["k0"]

/-- Cached tokens are always the value the external mechanism yields for
their key path. -/
def cacheSound (activate : String → String) (st : TokenCache) : Prop :=
  ∀ e ∈ st.cache, e.2 = activate e.1

/-- The state invariant maintained while no eviction has occurred yet:
cached values are sound, cached keys are pairwise distinct, and the
activation log holds exactly the cached keys. -/
structure LruInv (activate : String → String) (st : TokenCache) : Prop where
  sound : cacheSound activate st
  nodupKeys : (st.cache.map Prod.fst).Nodup
  actIff : ∀ q : String, q ∈ st.activations ↔ q ∈ st.cache.map Prod.fst

/-- Per-project pass predicate: every database of the project has an ACL
set-equal to the given range (vacuously true without databases). -/
def projectOk (w : World) (pid : String) (r : List String) : Bool :=
  (w.databases pid).all (fun db => pySetEq (w.acl_rules pid db.id) r)

/-- Aggregate pass predicate of a `validate_org` run. -/
def orgRunOk (w : World) (org : String) (pr npr : List String) : Bool :=
  (get_all_projects w org).all (fun q =>
    projectOk w (pyStr q.1) (get_egress_range (q.2.getD "") pr npr))

/-- Aggregate pass predicate of a `validate_projects` run. -/
def projectsRunOk (w : World) (pids : List String) (pr npr : List String) : Bool :=
  (get_project_details w pids).all (fun q =>
    projectOk w q.1 (get_egress_range q.2 pr npr))

/-! ## Helper lemmas -/

lemma pySetEq_iff (a b : List String) :
    pySetEq a b = true ↔ a.toFinset = b.toFinset := by
  simp [pySetEq]

lemma charsHaveStart_toUpper (n : List Char) :
    ∀ h : List Char, charsHaveStart n (h.map Char.toUpper) = charsHaveStartCI n h := by
  induction n with
  | nil => intro h; cases h <;> rfl
  | cons a as ih =>
      intro h
      cases h with
      | nil => rfl
      | cons b bs => simp [charsHaveStart, charsHaveStartCI, ih]

lemma charsContain_toUpper (n : List Char) (h : List Char) :
    charsContain n (h.map Char.toUpper) = charsContainCI n h := by
  induction h with
  | nil => rfl
  | cons b bs ih =>
      have h1 := charsHaveStart_toUpper n (b :: bs)
      rw [List.map_cons] at h1
      simp [charsContain, charsContainCI, h1, ih]

lemma hasNonProdMarker_eq (name : String) :
    hasNonProdMarker name = charsContainCI "NON-PROD".data name.data := by
  unfold hasNonProdMarker
  have hd : (pyUpper name).data = name.data.map Char.toUpper := rfl
  rw [hd, charsContain_toUpper]

lemma get_egress_range_some (nm : String) (pr npr : List String) :
    get_egress_range nm (some pr) (some npr) = some (get_egress_range nm pr npr) := by
  unfold get_egress_range
  by_cases h : hasNonProdMarker nm <;> simp [h]

lemma checkLoop_some_eq (w : World) (pid : String) (r : List String)
    (dbs : List DbInstance) (acc : Bool) (log : List LogEntry) :
    checkLoop w pid (some r) dbs acc log =
      Except.ok (acc && dbs.all (fun db => pySetEq (w.acl_rules pid db.id) r),
        log ++ dbs.map (fun db =>
          if pySetEq (w.acl_rules pid db.id) r then LogEntry.aclCorrect db.name db.id
          else LogEntry.aclFailed db.name db.id r (w.acl_rules pid db.id))) := by
  induction dbs generalizing acc log with
  | nil => simp [checkLoop]
  | cons db rest ih =>
      by_cases h : pySetEq (w.acl_rules pid db.id) r
      · simp [checkLoop, h, ih, Bool.and_assoc]
      · simp [checkLoop, h, ih, Bool.and_assoc]

lemma check_some_eq (w : World) (pid : String) (r : List String) :
    check_database_acl_of_project w pid (some r) =
      Except.ok (projectOk w pid r,
        (if (w.databases pid).isEmpty then [LogEntry.noDatabases] else []) ++
          (w.databases pid).map (fun db =>
            if pySetEq (w.acl_rules pid db.id) r then LogEntry.aclCorrect db.name db.id
            else LogEntry.aclFailed db.name db.id r (w.acl_rules pid db.id))) := by
  unfold check_database_acl_of_project projectOk
  rw [checkLoop_some_eq]
  simp

lemma orgLoop_eq (w : World) (pr npr : List String)
    (items : List (Option String × Option String)) :
    ∀ acc : Bool, (∀ q ∈ items, q.2 ≠ none) →
      orgLoop w pr npr items acc =
        Except.ok (if acc && items.all (fun q =>
            projectOk w (pyStr q.1) (get_egress_range (q.2.getD "") pr npr))
          then RunOutcome.success else RunOutcome.aclFailure) := by
  induction items with
  | nil => intro acc _; simp [orgLoop]
  | cons q rest ih =>
      intro acc h
      obtain ⟨pid, pname⟩ := q
      cases pname with
      | none => exact ((h (pid, none) (List.mem_cons_self _ _)) rfl).elim
      | some nm =>
          have hrest : ∀ q ∈ rest, q.2 ≠ none :=
            fun q hq => h q (List.mem_cons_of_mem _ hq)
          simp only [orgLoop, get_egress_range_some, check_some_eq,
            ih (acc && projectOk w (pyStr pid) (get_egress_range nm pr npr)) hrest]
          simp only [List.all_cons, Option.getD_some]
          rw [Bool.and_assoc]

lemma validateLoop_some_eq (w : World) (pr npr : List String)
    (pairs : List (String × String)) :
    ∀ acc : Bool,
      validateLoop w (some pr) (some npr) pairs acc =
        Except.ok (if acc && pairs.all (fun q => projectOk w q.1 (get_egress_range q.2 pr npr))
          then RunOutcome.success else RunOutcome.aclFailure) := by
  induction pairs with
  | nil => intro acc; simp [validateLoop]
  | cons q rest ih =>
      intro acc
      obtain ⟨pid, nm⟩ := q
      simp only [validateLoop, get_egress_range_some, check_some_eq,
        ih (acc && projectOk w pid (get_egress_range nm pr npr))]
      simp only [List.all_cons]
      rw [Bool.and_assoc]

lemma get_egress_range_none (nm : String) :
    get_egress_range nm (none : Option (List String)) none = none := by
  unfold get_egress_range
  split <;> rfl

lemma validateLoop_none_eq (w : World) (pairs : List (String × String)) :
    ∀ acc : Bool,
      validateLoop w none none pairs acc =
        if pairs.all (fun q => (w.databases q.1).isEmpty)
        then Except.ok (if acc then RunOutcome.success else RunOutcome.aclFailure)
        else Except.error PyError.typeError := by
  induction pairs with
  | nil => intro acc; simp [validateLoop]
  | cons q rest ih =>
      intro acc
      obtain ⟨pid, nm⟩ := q
      cases hdb : w.databases pid with
      | nil =>
          simp [validateLoop, get_egress_range_none, check_database_acl_of_project,
            hdb, checkLoop, ih]
          rw [hdb]
          rw [show (List.isEmpty ([] : List DbInstance)) = true from rfl, Bool.true_and]
      | cons d ds =>
          simp [validateLoop, get_egress_range_none, check_database_acl_of_project,
            hdb, checkLoop]

instance {ε α : Type} [DecidableEq ε] [DecidableEq α] : DecidableEq (Except ε α) := by
  intro a b
  cases a <;> cases b
  case error.error e f => exact decidable_of_iff (e = f) (by simp)
  case ok.ok x y => exact decidable_of_iff (x = y) (by simp)
  all_goals exact isFalse (by intro h; cases h)

lemma lookup_pair_mem {l : List (String × String)} {q t : String}
    (h : l.lookup q = some t) : (q, t) ∈ l := by
  induction l with
  | nil => simp [List.lookup] at h
  | cons e es ih =>
      obtain ⟨k, v⟩ := e
      by_cases hk : q = k
      · subst hk
        simp [List.lookup] at h
        simp [h]
      · simp only [List.lookup, beq_false_of_ne hk] at h
        exact List.mem_cons_of_mem _ (ih h)

lemma lookup_none_iff {l : List (String × String)} {q : String} :
    l.lookup q = none ↔ q ∉ l.map Prod.fst := by
  induction l with
  | nil => simp [List.lookup]
  | cons e es ih =>
      obtain ⟨k, v⟩ := e
      by_cases hk : q = k
      · subst hk
        simp [List.lookup]
      · simp [List.lookup, beq_false_of_ne hk, ih, hk]

lemma map_fst_eraseP (l : List (String × String)) (q : String) :
    (l.eraseP (fun e => e.1 == q)).map Prod.fst = (l.map Prod.fst).erase q := by
  induction l with
  | nil => rfl
  | cons e es ih =>
      obtain ⟨k, v⟩ := e
      by_cases hk : k = q
      · subst hk
        simp [List.eraseP_cons, List.erase_cons]
      · simp [List.eraseP_cons, List.erase_cons, beq_false_of_ne hk, ih]

lemma get_bearer_token_sound (activate : String → String) (st : TokenCache)
    (p : String) (hst : cacheSound activate st) :
    (get_bearer_token activate st p).1 = activate p ∧
      cacheSound activate (get_bearer_token activate st p).2 := by
  unfold get_bearer_token
  cases hp : st.cache.lookup p with
  | some t =>
      have hmem : (p, t) ∈ st.cache := lookup_pair_mem hp
      refine ⟨hst _ hmem, ?_⟩
      intro e he
      rcases List.mem_cons.mp he with he | he
      · subst he; exact hst _ hmem
      · exact hst _ ((List.eraseP_sublist _).subset he)
  | none =>
      refine ⟨rfl, ?_⟩
      intro e he
      have he2 : e ∈ (p, activate p) :: st.cache := List.take_subset _ _ he
      rcases List.mem_cons.mp he2 with he2 | he2
      · subst he2; rfl
      · exact hst _ he2

lemma runCalls_tokens (activate : String → String) (calls : List String) :
    ∀ st : TokenCache, cacheSound activate st →
      (runCalls activate st calls).1 = calls.map activate ∧
        cacheSound activate (runCalls activate st calls).2 := by
  induction calls with
  | nil => intro st hst; exact ⟨rfl, hst⟩
  | cons p rest ih =>
      intro st hst
      obtain ⟨h1, h2⟩ := get_bearer_token_sound activate st p hst
      obtain ⟨h3, h4⟩ := ih (get_bearer_token activate st p).2 h2
      refine ⟨?_, ?_⟩
      · simp [runCalls, h1, h3]
      · simp [runCalls, h4]

lemma lru_hit_inv (activate : String → String) (st : TokenCache) (q t : String)
    (hq : st.cache.lookup q = some t) (hinv : LruInv activate st) :
    LruInv activate (get_bearer_token activate st q).2
    ∧ (get_bearer_token activate st q).2.activations = st.activations
    ∧ (∀ k : String, k ∈ (get_bearer_token activate st q).2.cache.map Prod.fst
        ↔ k ∈ st.cache.map Prod.fst) := by
  have hqpair : (q, t) ∈ st.cache := lookup_pair_mem hq
  have hqkey : q ∈ st.cache.map Prod.fst := List.mem_map_of_mem Prod.fst hqpair
  have hcache : (get_bearer_token activate st q).2.cache
      = (q, t) :: st.cache.eraseP (fun e => e.1 == q) := by
    simp [get_bearer_token, hq]
  have hact : (get_bearer_token activate st q).2.activations = st.activations := by
    simp [get_bearer_token, hq]
  have hmapfst : (get_bearer_token activate st q).2.cache.map Prod.fst
      = q :: (st.cache.map Prod.fst).erase q := by
    rw [hcache]
    simp [map_fst_eraseP]
  have hkiff : ∀ k : String,
      k ∈ (get_bearer_token activate st q).2.cache.map Prod.fst
        ↔ k ∈ st.cache.map Prod.fst := by
    intro k
    rw [hmapfst]
    by_cases hk : k = q
    · subst hk; simp [hqkey]
    · simp [List.mem_cons, hk, List.mem_erase_of_ne hk]
  refine ⟨⟨?_, ?_, ?_⟩, hact, hkiff⟩
  · intro e he
    rw [hcache] at he
    rcases List.mem_cons.mp he with he | he
    · subst he; exact hinv.sound _ hqpair
    · exact hinv.sound _ ((List.eraseP_sublist _).subset he)
  · rw [hmapfst, List.nodup_cons]
    refine ⟨?_, hinv.nodupKeys.erase q⟩
    intro hqmem
    rw [hinv.nodupKeys.mem_erase_iff] at hqmem
    exact hqmem.1 rfl
  · intro k
    rw [hact, hkiff k]
    exact hinv.actIff k

lemma lru_miss_inv (activate : String → String) (st : TokenCache) (q : String)
    (hq : st.cache.lookup q = none) (hinv : LruInv activate st)
    (hroom : st.cache.length + 1 ≤ lruMaxsize) :
    (get_bearer_token activate st q).2.cache = (q, activate q) :: st.cache
    ∧ (get_bearer_token activate st q).2.activations = q :: st.activations
    ∧ LruInv activate (get_bearer_token activate st q).2 := by
  have hqkey : q ∉ st.cache.map Prod.fst := lookup_none_iff.mp hq
  have hlen : ((q, activate q) :: st.cache).length ≤ lruMaxsize := by
    simpa using hroom
  have hcache : (get_bearer_token activate st q).2.cache
      = (q, activate q) :: st.cache := by
    simp [get_bearer_token, hq, List.take_of_length_le hlen]
  have hact : (get_bearer_token activate st q).2.activations
      = q :: st.activations := by
    simp [get_bearer_token, hq]
  refine ⟨hcache, hact, ?_, ?_, ?_⟩
  · intro e he
    rw [hcache] at he
    rcases List.mem_cons.mp he with he | he
    · subst he; rfl
    · exact hinv.sound _ he
  · rw [hcache]
    simp only [List.map_cons]
    rw [List.nodup_cons]
    exact ⟨hqkey, hinv.nodupKeys⟩
  · intro k
    rw [hact, hcache]
    simp [List.mem_cons, hinv.actIff k]

lemma runCalls_lru_count (activate : String → String) (calls : List String) :
    ∀ st : TokenCache, LruInv activate st →
      (st.cache.map Prod.fst ++ calls).toFinset.card ≤ lruMaxsize →
      ∀ p : String,
        (runCalls activate st calls).2.activations.count p =
          st.activations.count p +
            (if p ∈ calls ∧ p ∉ st.cache.map Prod.fst then 1 else 0) := by
  induction calls with
  | nil => intro st _ _ p; simp [runCalls]
  | cons q rest ih =>
      intro st hinv hbound p
      have hrun : (runCalls activate st (q :: rest)).2
          = (runCalls activate (get_bearer_token activate st q).2 rest).2 := by
        simp [runCalls]
      cases hq : st.cache.lookup q with
      | some t =>
          obtain ⟨hinv1, hact1, hkiff1⟩ := lru_hit_inv activate st q t hq hinv
          have hqkey : q ∈ st.cache.map Prod.fst :=
            List.mem_map_of_mem Prod.fst (lookup_pair_mem hq)
          have hbound1 :
              ((get_bearer_token activate st q).2.cache.map Prod.fst ++ rest).toFinset.card
                ≤ lruMaxsize := by
            refine le_trans (Finset.card_le_card ?_) hbound
            intro k hk
            simp only [List.toFinset_append, Finset.mem_union, List.mem_toFinset] at hk ⊢
            rcases hk with hk | hk
            · exact Or.inl ((hkiff1 k).mp hk)
            · exact Or.inr (List.mem_cons_of_mem _ hk)
          rw [hrun, ih _ hinv1 hbound1 p, hact1]
          congr 1
          by_cases hpq : p = q
          · subst hpq
            have hc1 : ¬(p ∈ rest
                ∧ p ∉ (get_bearer_token activate st p).2.cache.map Prod.fst) :=
              fun hc => hc.2 ((hkiff1 p).mpr hqkey)
            have hc2 : ¬(p ∈ p :: rest ∧ p ∉ st.cache.map Prod.fst) :=
              fun hc => hc.2 hqkey
            rw [if_neg hc1, if_neg hc2]
          · have hcond : (p ∈ rest
                ∧ p ∉ (get_bearer_token activate st q).2.cache.map Prod.fst)
                ↔ (p ∈ q :: rest ∧ p ∉ st.cache.map Prod.fst) := by
              rw [hkiff1 p]
              simp [List.mem_cons, hpq]
            simp only [hcond]
      | none =>
          have hqkey : q ∉ st.cache.map Prod.fst := lookup_none_iff.mp hq
          have hsub : insert q (st.cache.map Prod.fst).toFinset
              ⊆ (st.cache.map Prod.fst ++ q :: rest).toFinset := by
            intro k hk
            simp only [Finset.mem_insert, List.mem_toFinset] at hk
            simp only [List.toFinset_append, Finset.mem_union, List.mem_toFinset]
            rcases hk with rfl | hk
            · exact Or.inr (List.mem_cons_self _ _)
            · exact Or.inl hk
          have hroom : st.cache.length + 1 ≤ lruMaxsize := by
            have h1 : (insert q (st.cache.map Prod.fst).toFinset).card ≤ lruMaxsize :=
              le_trans (Finset.card_le_card hsub) hbound
            rw [Finset.card_insert_of_not_mem (by simpa using hqkey),
              List.toFinset_card_of_nodup hinv.nodupKeys, List.length_map] at h1
            exact h1
          obtain ⟨hcache1, hact1, hinv1⟩ := lru_miss_inv activate st q hq hinv hroom
          have hbound1 :
              ((get_bearer_token activate st q).2.cache.map Prod.fst ++ rest).toFinset.card
                ≤ lruMaxsize := by
            refine le_trans (le_of_eq (congrArg Finset.card ?_)) hbound
            rw [hcache1]
            ext k
            simp only [List.toFinset_append, Finset.mem_union, List.mem_toFinset,
              List.map_cons, List.mem_cons]
            tauto
          rw [hrun, ih _ hinv1 hbound1 p, hact1, hcache1]
          simp only [List.map_cons, List.count_cons]
          by_cases hpq : p = q
          · subst hpq
            have hc1 : ¬(p ∈ rest ∧ p ∉ p :: st.cache.map Prod.fst) :=
              fun hc => hc.2 (List.mem_cons_self _ _)
            have hc2 : p ∈ p :: rest ∧ p ∉ st.cache.map Prod.fst :=
              ⟨List.mem_cons_self _ _, hqkey⟩
            rw [if_neg hc1, if_pos hc2]
            simp
          · have hcond : (p ∈ rest ∧ p ∉ q :: st.cache.map Prod.fst)
                ↔ (p ∈ q :: rest ∧ p ∉ st.cache.map Prod.fst) := by
              simp [List.mem_cons, hpq]
            have hzero : (if (q == p) = true then 1 else 0) = 0 := by
              simp [Ne.symm hpq]
            simp only [hcond, hzero]
            omega

/-! ## Concrete worlds used as witnesses and counterexamples -/

/-- A project with a single database instance whose ACL rule list is `A`. -/
def oneDbWorld (A : List String) : World :=
  { clusterEgress := fun _ _ => EgressField.missing
    orgProjects := fun _ => []
    projectName := fun _ => ""
    databases := fun _ => [⟨"db-id", "db-name"⟩]
    acl_rules := fun _ _ => A }

/-- Both clusters resolve to the same non-empty egress range, the
organization lists one named production project, and every project is free of
database instances. -/
def wEx : World :=
  { clusterEgress := fun _ _ => EgressField.val ["1.1.1.1/32"]
    orgProjects := fun _ => [[("projectId", "p1"), ("name", "team PROD")]]
    projectName := fun _ => "team NON-PROD"
    databases := fun _ => []
    acl_rules := fun _ _ => [] }

/-- A project with two database instances, the first of which carries an
extra ACL entry. -/
def wTwoDb : World :=
  { clusterEgress := fun _ _ => EgressField.val ["1.1.1.1/32"]
    orgProjects := fun _ => []
    projectName := fun _ => "team PROD"
    databases := fun _ => [⟨"id1", "db1"⟩, ⟨"id2", "db2"⟩]
    acl_rules := fun _ iid =>
      if iid = "id1" then ["1.1.1.1/32", "3.3.3.3/32"] else ["1.1.1.1/32"] }

/-- A cluster response whose body carries no `egressAddressRanges` key. -/
def wMissingEgress : World :=
  { clusterEgress := fun _ _ => EgressField.missing
    orgProjects := fun _ => []
    projectName := fun _ => ""
    databases := fun _ => []
    acl_rules := fun _ _ => [] }

/-- An organization listing with one item missing `projectId` and one item
missing `name`. -/
def wMixedItems : World :=
  { clusterEgress := fun _ _ => EgressField.val ["1.1.1.1/32"]
    orgProjects := fun _ => [[("name", "only-name")], [("projectId", "only-id")]]
    projectName := fun _ => ""
    databases := fun _ => []
    acl_rules := fun _ _ => [] }

/-- One production-named project holding one database whose ACL equals the
production egress range. -/
def wOneDb : World :=
  { clusterEgress := fun _ _ => EgressField.val ["1.1.1.1/32"]
    orgProjects := fun _ => []
    projectName := fun _ => "project_name_1 PROD"
    databases := fun _ => [⟨"p_1_db_1_id", "p_1_db_1_name"⟩]
    acl_rules := fun _ _ => ["1.1.1.1/32"] }

/-! ## Claim theorems -/

/-- Claim C1: the per-instance verdict of `check_database_acl_of_project`,
namely `set(acl_rules) == set(cluster_egress_range)`, passes iff the element
sets of the two lists are equal; it never changes under duplicating or
reordering either list, and for a one-database project the check returns
exactly this verdict. -/
theorem acl_verdict_iff_set_eq (A E : List String) :
    (pySetEq A E = true ↔ A.toFinset = E.toFinset)
    ∧ pySetEq (A ++ A) E = pySetEq A E
    ∧ pySetEq A.reverse E = pySetEq A E
    ∧ pySetEq A (E ++ E) = pySetEq A E
    ∧ pySetEq A E.reverse = pySetEq A E
    ∧ (check_database_acl_of_project (oneDbWorld A) "p" (some E)).map Prod.fst
        = Except.ok (pySetEq A E) := by
  refine ⟨pySetEq_iff A E, ?_, ?_, ?_, ?_, ?_⟩
  · simp [pySetEq, List.toFinset_append]
  · simp [pySetEq, List.toFinset_reverse]
  · simp [pySetEq, List.toFinset_append]
  · simp [pySetEq, List.toFinset_reverse]
  · by_cases h : pySetEq A E <;>
      simp [check_database_acl_of_project, oneDbWorld, checkLoop, h, Except.map]

/-- Claim C2: a run of `validate_org` or `validate_projects` whose lookups
all succeed (both cluster egress ranges resolved, every listed project
carrying a name, ranges supplied) terminates with the aggregate-mismatch
exception iff at least one database of at least one processed project has an
ACL set unequal to its expected range, and terminates successfully otherwise,
the zero-database and zero-project cases included. -/
theorem run_verdict_iff_all_match
    (w : World) (org : String) (pr npr : List String)
    (w2 : World) (pids : List String) (pr2 npr2 : List String)
    (h1 : get_cluster_egress_ip w prodClusterProjectId "production" = Except.ok pr)
    (h2 : get_cluster_egress_ip w nonProdClusterProjectId "non-prod" = Except.ok npr)
    (h3 : ∀ q ∈ get_all_projects w org, q.2 ≠ none) :
    validate_org w org =
      Except.ok (if orgRunOk w org pr npr then RunOutcome.success
        else RunOutcome.aclFailure)
    ∧ validate_projects w2 pids (some pr2) (some npr2) =
      Except.ok (if projectsRunOk w2 pids pr2 npr2 then RunOutcome.success
        else RunOutcome.aclFailure) := by
  constructor
  · unfold validate_org
    rw [h1, h2]
    by_cases hemp : (get_all_projects w org).isEmpty
    · have hnil : get_all_projects w org = [] := List.isEmpty_iff.mp hemp
      simp [hemp, orgRunOk, hnil]
    · simp only [hemp, Bool.false_eq_true, if_false]
      rw [orgLoop_eq w pr npr _ true h3]
      simp only [orgRunOk]
      rw [Bool.true_and]
  · unfold validate_projects
    rw [validateLoop_some_eq]
    simp only [projectsRunOk]
    rw [Bool.true_and]

/-- Witness for C2 at a concrete world: all lookups succeed and no database
exists, so both runs succeed. -/
theorem run_verdict_iff_all_match_witness :
    validate_org wEx "org-id" =
      Except.ok (if orgRunOk wEx "org-id" ["1.1.1.1/32"] ["1.1.1.1/32"]
        then RunOutcome.success else RunOutcome.aclFailure)
    ∧ validate_projects wEx ["p1"] (some ["1.1.1.1/32"]) (some ["1.1.1.1/32"]) =
      Except.ok (if projectsRunOk wEx ["p1"] ["1.1.1.1/32"] ["1.1.1.1/32"]
        then RunOutcome.success else RunOutcome.aclFailure) :=
  run_verdict_iff_all_match wEx "org-id" ["1.1.1.1/32"] ["1.1.1.1/32"]
    wEx ["p1"] ["1.1.1.1/32"] ["1.1.1.1/32"] rfl rfl (by decide)

/-- Claim C3: a project whose database listing is empty yields a vacuous
pass with exactly the informational no-databases log entry, independently of
the expected range (so no ACL lookup can influence the result). -/
theorem check_empty_project_vacuous_pass (w : World) (pid : String)
    (range : Option (List String)) (h : w.databases pid = []) :
    check_database_acl_of_project w pid range =
      Except.ok (true, [LogEntry.noDatabases]) := by
  simp [check_database_acl_of_project, h, checkLoop]

/-- Witness for C3 at a concrete world with no databases. -/
theorem check_empty_project_vacuous_pass_witness :
    check_database_acl_of_project wEx "p1" none =
      Except.ok (true, [LogEntry.noDatabases]) :=
  check_empty_project_vacuous_pass wEx "p1" none rfl

/-- Claim C4: on a non-empty database list the check visits every instance:
the verdict is the conjunction over all instances and the log carries one
entry per instance in listing order, a failing instance being logged with
both the expected and the actual rule lists; in particular an early failure
skips nothing. -/
theorem check_no_short_circuit (w : World) (pid : String) (r : List String)
    (hne : w.databases pid ≠ []) :
    check_database_acl_of_project w pid (some r) =
      Except.ok ((w.databases pid).all (fun db => pySetEq (w.acl_rules pid db.id) r),
        (w.databases pid).map (fun db =>
          if pySetEq (w.acl_rules pid db.id) r then LogEntry.aclCorrect db.name db.id
          else LogEntry.aclFailed db.name db.id r (w.acl_rules pid db.id))) := by
  rw [check_some_eq]
  cases hd : w.databases pid with
  | nil => exact absurd hd hne
  | cons d ds => simp [projectOk, hd]

/-- Witness for C4: two databases, the first mismatching, and still both are
checked and logged. -/
theorem check_no_short_circuit_witness :
    check_database_acl_of_project wTwoDb "p1" (some ["1.1.1.1/32"]) =
      Except.ok (false,
        [LogEntry.aclFailed "db1" "id1" ["1.1.1.1/32"] ["1.1.1.1/32", "3.3.3.3/32"],
         LogEntry.aclCorrect "db2" "id2"]) := by
  have h := check_no_short_circuit wTwoDb "p1" ["1.1.1.1/32"] (by decide)
  rw [h]
  decide

/-- Claim C5: `get_egress_range` returns its non-production argument exactly
when the project name contains the marker NON-PROD case-insensitively, and
its production argument for every other name, names containing only PROD
included. -/
theorem egress_range_selection_marker (name : String) (prod non_prod : List String) :
    (get_egress_range name prod non_prod =
      if charsContainCI "NON-PROD".data name.data then non_prod else prod)
    ∧ get_egress_range "team-a-non-prod-2" ["10.0.0.0/8"] ["192.168.0.0/16"]
        = ["192.168.0.0/16"]
    ∧ get_egress_range "Team A NON-PROD" ["10.0.0.0/8"] ["192.168.0.0/16"]
        = ["192.168.0.0/16"]
    ∧ get_egress_range "PRODUCTION team" ["10.0.0.0/8"] ["192.168.0.0/16"]
        = ["10.0.0.0/8"]
    ∧ get_egress_range "team-a" ["10.0.0.0/8"] ["192.168.0.0/16"]
        = ["10.0.0.0/8"] := by
  refine ⟨?_, by decide, by decide, by decide, by decide⟩
  unfold get_egress_range
  rw [hasNonProdMarker_eq]

set_option maxRecDepth 10000 in
/-- Counterexample to C6 as stated: the bare `@lru_cache` keeps at most 128
entries, so after 129 distinct key paths the least recently used one has been
evicted and a later call with it performs the external activation a second
time, against the exactly-once-per-distinct-path claim. -/
theorem bearer_token_eviction_reactivates :
    "k0" ∈ evictionCalls
    ∧ (runCalls (fun s => s) emptyTokenCache evictionCalls).2.activations.count "k0"
        = 2 :=
  ⟨by decide, by decide⟩

/-- Claim C6 (amended): as long as at most 128 distinct key paths (the
`lru_cache` default `maxsize`) occur in the call sequence, the external
activation runs exactly once per distinct key path occurring in the sequence
(zero times for paths never requested, independently per path), and every
call still receives the token the external mechanism yields for its path;
beyond 128 distinct paths, eviction can force a re-activation. -/
theorem bearer_token_single_activation (activate : String → String)
    (calls : List String) (p : String)
    (hbound : calls.toFinset.card ≤ lruMaxsize) :
    (runCalls activate emptyTokenCache calls).2.activations.count p
        = (if p ∈ calls then 1 else 0)
    ∧ (runCalls activate emptyTokenCache calls).1 = calls.map activate := by
  constructor
  · have hinv : LruInv activate emptyTokenCache := by
      refine ⟨?_, ?_, ?_⟩
      · intro e he
        simp [emptyTokenCache] at he
      · simp [emptyTokenCache]
      · intro k
        simp [emptyTokenCache]
    have h := runCalls_lru_count activate calls emptyTokenCache hinv
      (by simpa [emptyTokenCache] using hbound) p
    simpa [emptyTokenCache] using h
  · refine (runCalls_tokens activate calls emptyTokenCache ?_).1
    intro e he
    simp [emptyTokenCache] at he

/-- Witness for the amended C6 at a concrete three-call sequence over two
distinct key paths. -/
theorem bearer_token_single_activation_witness :
    (["alpha", "beta", "alpha"] : List String).toFinset.card ≤ lruMaxsize
    ∧ (runCalls (fun s => s) emptyTokenCache ["alpha", "beta", "alpha"]
        ).2.activations.count "alpha"
        = (if "alpha" ∈ (["alpha", "beta", "alpha"] : List String) then 1 else 0)
    ∧ (runCalls (fun s => s) emptyTokenCache ["alpha", "beta", "alpha"]).1
        = (["alpha", "beta", "alpha"] : List String).map (fun s => s) := by
  refine ⟨by decide, ?_, ?_⟩
  · exact (bearer_token_single_activation (fun s => s) ["alpha", "beta", "alpha"]
      "alpha" (by decide)).1
  · exact (bearer_token_single_activation (fun s => s) ["alpha", "beta", "alpha"]
      "alpha" (by decide)).2

/-- Counterexample to C7 as stated: a successful cluster response whose body
lacks the egress list altogether makes `get_cluster_egress_ip` fail with a
`KeyError` from the dict access, not with the EgressRangeNotFound
`ValueError`. -/
theorem cluster_egress_missing_key_gives_key_error :
    get_cluster_egress_ip wMissingEgress prodClusterProjectId "production"
        = Except.error PyError.keyError
    ∧ (Except.error PyError.keyError : Except PyError (List String))
        ≠ Except.error PyError.valueError :=
  ⟨rfl, by decide⟩

/-- Claim C7 (amended): `get_cluster_egress_ip` fails with the
EgressRangeNotFound `ValueError` exactly when the egress field is present but
null or the empty list, fails with `KeyError` exactly when the field is
missing from the body, and returns the list exactly when it is present and
non-empty. -/
theorem cluster_egress_error_cases (w : World) (p c : String) :
    (get_cluster_egress_ip w p c = Except.error PyError.valueError
      ↔ (w.clusterEgress p c = EgressField.null
          ∨ w.clusterEgress p c = EgressField.val []))
    ∧ (get_cluster_egress_ip w p c = Except.error PyError.keyError
      ↔ w.clusterEgress p c = EgressField.missing)
    ∧ (∀ l : List String, get_cluster_egress_ip w p c = Except.ok l
      ↔ (w.clusterEgress p c = EgressField.val l ∧ l ≠ [])) := by
  unfold get_cluster_egress_ip
  cases h : w.clusterEgress p c with
  | missing => simp
  | null => simp
  | val l =>
      cases l with
      | nil => simp
      | cons x xs =>
          refine ⟨by simp, by simp, ?_⟩
          intro l
          constructor
          · intro hl
            obtain rfl : x :: xs = l := by simpa using hl
            simp
          · rintro ⟨hval, -⟩
            obtain rfl : x :: xs = l := by simpa using hval
            rfl

/-- Claim C8 is a code bug: the two `typer.Option` declarations announce
environment variables in their help text but pass no `envvar`, so with the
options omitted the resolved ranges stay `None` even when the environment
variables are set; a run over a project with one database then aborts with
`TypeError` where the advertised behavior would have validated successfully. -/
theorem env_egress_range_ignored :
    resolveEgressOption none (some ["1.1.1.1/32"]) = none
    ∧ validate_projects wOneDb ["project_id_1"]
        (resolveEgressOption none (some ["1.1.1.1/32"]))
        (resolveEgressOption none (some ["2.2.2.2/32"]))
        = Except.error PyError.typeError
    ∧ validate_projects wOneDb ["project_id_1"]
        (some ["1.1.1.1/32"]) (some ["2.2.2.2/32"])
        = Except.ok RunOutcome.success := by
  refine ⟨rfl, by decide, by decide⟩

/-- Claim C9: `get_all_projects` yields one (project id, name) pair per item
of the listing, in order; an item missing `projectId` or `name` contributes
an absent component instead of failing, as the concrete mixed listing
shows. -/
theorem org_projects_tolerate_missing_fields (w : World) (org : String) :
    ((get_all_projects w org).length = (w.orgProjects org).length)
    ∧ (∀ i : Nat, (get_all_projects w org)[i]? =
        ((w.orgProjects org)[i]?).map
          (fun p => (pyGet p "projectId", pyGet p "name")))
    ∧ get_all_projects wMixedItems "org-id"
        = [(none, some "only-name"), (some "only-id", none)] := by
  refine ⟨by simp [get_all_projects], ?_, by decide⟩
  intro i
  simp [get_all_projects]

/-- Claim C10: with both egress-range options omitted, `validate_projects`
still succeeds when every supplied project has zero database instances, and
aborts with the `TypeError` from `set(None)` as soon as any project contains
a database instance. -/
theorem validate_projects_none_ranges (w : World) (pids : List String) :
    validate_projects w pids none none =
      if pids.all (fun pid => (w.databases pid).isEmpty)
      then Except.ok RunOutcome.success
      else Except.error PyError.typeError := by
  unfold validate_projects
  rw [validateLoop_none_eq]
  simp [get_project_details, List.all_map, Function.comp]
